import Mathlib

/-!
Shallow embedding of `src/packages/overlay/src/OverlayPopover.ts`: the
open/close transition pipeline of the overlay controller.

Modelling conventions.  Each `async` method of the mixin is embedded as a
pure function producing the ordered list of side effects (`List Effect`) it
performs.  The live `this.open` boolean can be mutated by the environment at
every suspension point (`await`); each function therefore takes, as explicit
arguments, the value of `this.open` it observes in each synchronous span
between suspension points (an `Option Bool` argument models an optional
environment write applied at a resumption point: `none` means "unchanged").
The two platform-presentation probes (`matches(':popover-open')`,
`matches(':open')`) may throw, so each probe outcome is an
`Except Unit Bool`.  External collaborators (the timer registry, the
positioning engine, the focusable-descendant finders, `dialogEl`) are
represented by input data and by effects recording the calls made to them.
-/

inductive EvName
  | spOpened
  | spClosed
  deriving DecidableEq

inductive Trigger
  | absent
  | real
  | virtual
  deriving DecidableEq

inductive ReceivesFocus
  | rtrue
  | rfalse
  | rauto
  deriving DecidableEq

inductive OverlayType
  | auto
  | hint
  | manual
  | modal
  | page
  deriving DecidableEq

/-- One externally visible action performed by the pipeline, in program order. -/
inductive Effect
  | timerClose
  | setOpen (b : Bool)
  | awaitFrame
  | showPopover
  | managePosition
  | setElOpen (index : Nat) (b : Bool)
  | dispatchBeforetoggle (opening : Bool)
  | dispatchRoot (name : EvName) (bubbles composed : Bool)
  | dispatchLocal (index : Nat) (name : EvName) (bubbles composed hasDetail : Bool)
  | dispatchTrigger (name : EvName) (bubbles composed hasDetail : Bool)
  | addBeforetoggleListener
  | hidePopover
  | focusTrigger
  | focusCandidate (id : Nat)
  deriving DecidableEq

/-- Result of a possibly-throwing platform probe wrapped in `try { ... } catch {}`:
the catch swallows the failure and the local variable keeps its default `false`. -/
def probeVal : Except Unit Bool → Bool
  | Except.ok b => b
  | Except.error _ => false

/-- The event name chosen in `finish`: `targetOpenState ? 'sp-opened' : 'sp-closed'`. -/
def eventName (targetOpenState : Bool) : EvName :=
  if targetOpenState then EvName.spOpened else EvName.spClosed

/-- Embedding of `manageDelay(targetOpenState)`.  `opn` is `this.open` at entry,
`midTimer` an optional environment write applied when the timer await resumes,
`timerCancelled` the value resolved by `overlayTimer.openTimer(this)`.
Returns the effect trace and the value of `this.open` when the phase returns. -/
def manageDelay (targetOpenState opn delayed timerCancelled : Bool)
    (midTimer : Option Bool) : List Effect × Bool :=
  if targetOpenState = false ∨ targetOpenState ≠ opn then
    ([Effect.timerClose], opn)
  else if delayed then
    if timerCancelled then
      ([Effect.setOpen (!targetOpenState)], !targetOpenState)
    else
      ([], midTimer.getD opn)
  else
    ([], opn)

/-- Embedding of `ensureOnDOM(targetOpenState)`.  `opn` is `this.open` at entry;
`mid1`/`mid2` are optional environment writes applied when the first/second
`nextFrame()` resolves; the two probes are the `:popover-open` and `:open`
queries on `dialogEl`. -/
def ensureOnDOM (targetOpenState opn : Bool) (mid1 mid2 : Option Bool)
    (probePopoverOpen probeOpen : Except Unit Bool) (isConnected : Bool) :
    List Effect × Bool :=
  let o1 := mid1.getD opn
  let popoverOpen := probeVal probePopoverOpen
  let openMatch := probeVal probeOpen
  let mid : List Effect :=
    if targetOpenState = true ∧ o1 = targetOpenState ∧ popoverOpen = false ∧
        openMatch = false ∧ isConnected = true then
      [Effect.showPopover, Effect.managePosition]
    else
      []
  (Effect.awaitFrame :: (mid ++ [Effect.awaitFrame]), mid2.getD o1)

/-- Data of one participating element as seen by the transition phase:
whether `typeof el.open !== 'undefined'`, and the results of
`firstFocusableIn(el)` and of the scan over its child slots with
`firstFocusableSlottedIn` (an identifier, or `none` when nothing focusable). -/
structure ElemSpec where
  hasOpenProp : Bool
  firstFocusable : Option Nat
  slottedFocusable : Option Nat
  deriving DecidableEq

/-- Embedding of the `start(el, index)` callback of `makeTransition`
(effects only; the focus-candidate accumulation is `startFocusUpdate`). -/
def start (targetOpenState : Bool) (index : Nat) (el : ElemSpec) : List Effect :=
  (if el.hasOpenProp then [Effect.setElOpen index targetOpenState] else []) ++
    (if index = 0 then [Effect.dispatchBeforetoggle targetOpenState] else [])

/-- The focus-candidate accumulation performed by `start`:
`focusEl = focusEl || firstFocusableIn(el)`, then the slot scan,
all skipped on a closing transition. -/
def startFocusUpdate (targetOpenState : Bool) (acc : Option Nat) (el : ElemSpec) :
    Option Nat :=
  if targetOpenState then acc <|> el.firstFocusable <|> el.slottedFocusable else acc

/-- Effects of the synchronous registration loop
`this.elements.forEach((el, index) => guaranteedAllTransitionend(el, start .., finish ..))`:
every `start` callback runs synchronously, in order, starting at index `i0`. -/
def startsTrace (targetOpenState : Bool) (els : List ElemSpec) (i0 : Nat) : List Effect :=
  match els with
  | [] => []
  | el :: rest => start targetOpenState i0 el ++ startsTrace targetOpenState rest (i0 + 1)

/-- Embedding of the `reportChange` closure inside `finish` for index 0.
`openAtReport` is `this.open` when `reportChange` starts running. -/
def reportChange (targetOpenState openAtReport : Bool) (trigger : Trigger) :
    List Effect :=
  if openAtReport ≠ targetOpenState then []
  else
    let hasVirtualTrigger := trigger = Trigger.virtual
    [Effect.awaitFrame,
     Effect.dispatchRoot (eventName targetOpenState)
       (decide hasVirtualTrigger) (decide hasVirtualTrigger),
     Effect.dispatchLocal 0 (eventName targetOpenState) false false false] ++
      (if trigger = Trigger.real then
        [Effect.dispatchTrigger (eventName targetOpenState) true true true]
      else
        [])

/-- Embedding of the `finish(el, index)` callback.  `openAtFinish` is `this.open`
in the synchronous span in which the callback runs (both staleness checks and
the immediate `reportChange()` call share it); `openAtDeferred` is `this.open`
at the later one-shot `beforetoggle` listener when the hide path is taken.
First component: effects performed by the callback itself; second component:
the trace of the deferred `reportChange`, run only once the platform confirms
the hide, when one was wired. -/
def finish (targetOpenState : Bool) (index : Nat) (openAtFinish : Bool)
    (probePopoverOpen probeOpen : Except Unit Bool) (isConnected : Bool)
    (trigger : Trigger) (openAtDeferred : Bool) :
    List Effect × Option (List Effect) :=
  if openAtFinish ≠ targetOpenState then ([], Option.none)
  else if 0 < index then
    ([Effect.dispatchLocal index (eventName targetOpenState) false false true],
     Option.none)
  else if openAtFinish ≠ targetOpenState then ([], Option.none)
  else
    let popoverOpen := probeVal probePopoverOpen
    let openMatch := probeVal probeOpen
    if targetOpenState = false ∧ (popoverOpen = true ∨ openMatch = true) ∧
        isConnected = true then
      ([Effect.addBeforetoggleListener, Effect.hidePopover],
       Option.some (reportChange targetOpenState openAtDeferred trigger))
    else
      (reportChange targetOpenState openAtFinish trigger, Option.none)

/-- Embedding of `makeTransition(targetOpenState)` up to its synchronous return:
staleness check, then the registration loop (all `start` callbacks run, the
focus candidate is folded up, one `finish` callback is registered per element).
Returns (synchronous effects, focus candidate, number of registered finish
callbacks). -/
def makeTransition (targetOpenState openAtEntry : Bool) (els : List ElemSpec) :
    List Effect × Option Nat × Nat :=
  if openAtEntry ≠ targetOpenState then ([], Option.none, 0)
  else
    (startsTrace targetOpenState els 0,
     els.foldl (startFocusUpdate targetOpenState) Option.none,
     els.length)

/-- Embedding of `applyFocus(targetOpenState, focusEl)`.  `openAtCheck` is
`this.open` in the synchronous span after the two `nextFrame()` awaits;
`activeElementInside` is `this.contains((this.getRootNode()).activeElement)`. -/
def applyFocus (targetOpenState : Bool) (focusEl : Option Nat)
    (receivesFocus : ReceivesFocus) (otype : OverlayType) (openAtCheck : Bool)
    (trigger : Trigger) (activeElementInside : Bool) : List Effect :=
  if receivesFocus = ReceivesFocus.rfalse ∨ otype = OverlayType.hint then []
  else
    [Effect.awaitFrame, Effect.awaitFrame] ++
      (if targetOpenState = openAtCheck ∧ openAtCheck = false then
        (if trigger = Trigger.real then
          (if activeElementInside then [Effect.focusTrigger] else [])
        else
          [])
      else
        (match focusEl with
         | Option.some i => [Effect.focusCandidate i]
         | Option.none => []))

/-- How a run of `managePopoverOpen` ended: at which staleness checkpoint it
returned early, or that it ran all four phases. -/
inductive RunExit
  | abortEntry
  | abortAfterDelay
  | abortAfterAttach
  | abortAfterTransition
  | completed
  deriving DecidableEq

/-- All inputs of one `managePopoverOpen` run: the live `open` at entry, the
collaborator-controlled data, and the environment writes to `this.open` at
each suspension point (`none` = the environment leaves `open` alone there). -/
structure PipelineIn where
  open0 : Bool
  delayed : Bool
  timerCancelled : Bool
  delayMid : Option Bool
  afterDelay : Option Bool
  attachMid1 : Option Bool
  attachMid2 : Option Bool
  afterAttach : Option Bool
  probePopoverOpen : Except Unit Bool
  probeOpen : Except Unit Bool
  isConnected : Bool
  elements : List ElemSpec
  afterTransition : Option Bool
  receivesFocus : ReceivesFocus
  otype : OverlayType
  focusMid : Option Bool
  trigger : Trigger
  activeElementInside : Bool

/-- Result of one `managePopoverOpen` run: its synchronous-phase effect trace
(the registered `finish` callbacks fire later and are modelled separately),
the number of `finish` callbacks registered, the checkpoint outcome, and the
focus candidate handed from `makeTransition` to `applyFocus`. -/
structure RunOut where
  trace : List Effect
  registered : Nat
  exited : RunExit
  focusEl : Option Nat

/-- Embedding of `managePopoverOpen()`: snapshot `targetOpenState = this.open`,
then the four phases, each guarded by a staleness checkpoint on `this.open`. -/
def managePopoverOpen (inp : PipelineIn) : RunOut :=
  let targetOpenState := inp.open0
  if inp.open0 ≠ targetOpenState then
    ⟨[], 0, RunExit.abortEntry, Option.none⟩
  else
    let d := manageDelay targetOpenState inp.open0 inp.delayed inp.timerCancelled
      inp.delayMid
    let o1 := inp.afterDelay.getD d.2
    if o1 ≠ targetOpenState then
      ⟨d.1, 0, RunExit.abortAfterDelay, Option.none⟩
    else
      let a := ensureOnDOM targetOpenState o1 inp.attachMid1 inp.attachMid2
        inp.probePopoverOpen inp.probeOpen inp.isConnected
      let o2 := inp.afterAttach.getD a.2
      if o2 ≠ targetOpenState then
        ⟨d.1 ++ a.1, 0, RunExit.abortAfterAttach, Option.none⟩
      else
        let m := makeTransition targetOpenState o2 inp.elements
        let o3 := inp.afterTransition.getD o2
        if o3 ≠ targetOpenState then
          ⟨d.1 ++ a.1 ++ m.1, m.2.2, RunExit.abortAfterTransition, m.2.1⟩
        else
          let f := applyFocus targetOpenState m.2.1 inp.receivesFocus inp.otype
            (inp.focusMid.getD o3) inp.trigger inp.activeElementInside
          ⟨d.1 ++ a.1 ++ m.1 ++ f, m.2.2, RunExit.completed, m.2.1⟩

/-- Effects of the registered `finish` callbacks firing in completion order
`order` (one entry per element index), for a run in which `this.open` stays
equal to `openAtFinish` whenever a callback runs. -/
def finishTrace (targetOpenState openAtFinish : Bool)
    (probePopoverOpen probeOpen : Except Unit Bool) (isConnected : Bool)
    (trigger : Trigger) (openAtDeferred : Bool) (order : List Nat) : List Effect :=
  match order with
  | [] => []
  | i :: rest =>
      (finish targetOpenState i openAtFinish probePopoverOpen probeOpen isConnected
        trigger openAtDeferred).1 ++
        finishTrace targetOpenState openAtFinish probePopoverOpen probeOpen
          isConnected trigger openAtDeferred rest

/-- Modelled from the spec: `guaranteedAllTransitionend` (a collaborator defined
outside this file) runs every start callback synchronously at registration time
and every finish callback exactly once after that element's transitions settle.
An uninterrupted transition run's effect trace is therefore all `start` effects,
in registration order, followed by the `finish` effects in an arbitrary
completion order `order`, with `this.open` equal to the target throughout. -/
def uninterruptedRunTrace (targetOpenState : Bool) (els : List ElemSpec)
    (probePopoverOpen probeOpen : Except Unit Bool) (isConnected : Bool)
    (trigger : Trigger) (order : List Nat) : List Effect :=
  startsTrace targetOpenState els 0 ++
    finishTrace targetOpenState targetOpenState probePopoverOpen probeOpen
      isConnected trigger targetOpenState order

/-- Externally observable side effects in the sense of the staleness invariant:
DOM mutations, event dispatches and focus changes; frame waits, timer
cancellation and listener registration are not observable. -/
def isObservable : Effect → Bool
  | Effect.timerClose => false
  | Effect.awaitFrame => false
  | Effect.addBeforetoggleListener => false
  | _ => true

/-- Writes to the controller-level live `open` boolean. -/
def isSetOpenEff : Effect → Bool
  | Effect.setOpen _ => true
  | _ => false

/-- Dispatches of the before-open/before-close intent event. -/
def isBeforetoggleEff : Effect → Bool
  | Effect.dispatchBeforetoggle _ => true
  | _ => false

/-- Any dispatch of an `sp-opened` event (root, local or trigger scoped). -/
def isOpenedDispatch : Effect → Bool
  | Effect.dispatchRoot EvName.spOpened _ _ => true
  | Effect.dispatchLocal _ EvName.spOpened _ _ _ => true
  | Effect.dispatchTrigger EvName.spOpened _ _ _ => true
  | _ => false

/-- Effect kinds produced only by `start` callbacks. -/
def isStartEff : Effect → Bool
  | Effect.setElOpen _ _ => true
  | Effect.dispatchBeforetoggle _ => true
  | _ => false

/-- Effect kinds produced only by `finish` callbacks (and `reportChange`). -/
def isFinishEff : Effect → Bool
  | Effect.dispatchRoot _ _ _ => true
  | Effect.dispatchLocal _ _ _ _ _ => true
  | Effect.dispatchTrigger _ _ _ _ => true
  | Effect.hidePopover => true
  | Effect.addBeforetoggleListener => true
  | _ => false

/-- The local, non-bubbling `sp-opened` event on the primary element (index 0). -/
def isLocalPrimaryOpened : Effect → Bool
  | Effect.dispatchLocal 0 EvName.spOpened _ _ _ => true
  | _ => false

/-- The root-level `sp-opened` event or the trigger's detail-carrying one. -/
def isRootOrTriggerOpened : Effect → Bool
  | Effect.dispatchRoot EvName.spOpened _ _ => true
  | Effect.dispatchTrigger EvName.spOpened _ _ _ => true
  | _ => false

/-- Every effect satisfying `p` occurs strictly before every effect
satisfying `q` in the trace `tr`. -/
def allPrecede (p q : Effect → Bool) (tr : List Effect) : Prop :=
  ∀ i j : Fin tr.length, p (tr.get i) = true → q (tr.get j) = true →
    (i : Nat) < (j : Nat)

instance allPrecedeDecidable (p q : Effect → Bool) (tr : List Effect) :
    Decidable (allPrecede p q tr) :=
  inferInstanceAs (Decidable (∀ i j : Fin tr.length,
    p (tr.get i) = true → q (tr.get j) = true → (i : Nat) < (j : Nat)))

/-- A sample pipeline input: open target, delay enabled, timer resolving as
cancelled, no environment interference at any suspension point. -/
def sampleCancelledRun : PipelineIn :=
  ⟨true, true, true, Option.none, Option.none, Option.none, Option.none,
   Option.none, Except.ok false, Except.ok false, true, [], Option.none,
   ReceivesFocus.rtrue, OverlayType.auto, Option.none, Trigger.real, true⟩

/-! ## Helper lemmas -/

theorem start_mem (t : Bool) (i : Nat) (el : ElemSpec) :
    ∀ e ∈ start t i el, isStartEff e = true := by
  intro e he
  simp only [start, List.mem_append] at he
  rcases he with h | h
  · split at h
    · simp only [List.mem_singleton] at h
      subst h; rfl
    · simp at h
  · split at h
    · simp only [List.mem_singleton] at h
      subst h; rfl
    · simp at h

theorem startsTrace_mem (t : Bool) (els : List ElemSpec) (i0 : Nat) :
    ∀ e ∈ startsTrace t els i0, isStartEff e = true := by
  induction els generalizing i0 with
  | nil =>
      intro e he
      simp [startsTrace] at he
  | cons el rest ih =>
      intro e he
      simp only [startsTrace, List.mem_append] at he
      rcases he with h | h
      · exact start_mem t i0 el e h
      · exact ih (i0 + 1) e h

theorem reportChange_mem (t o : Bool) (tr : Trigger) :
    ∀ e ∈ reportChange t o tr, isFinishEff e = true ∨ e = Effect.awaitFrame := by
  intro e he
  simp only [reportChange] at he
  split at he
  · simp at he
  · simp only [List.mem_append, List.mem_cons, List.not_mem_nil, or_false] at he
    rcases he with (h | h | h) | h
    · exact Or.inr h
    · subst h; exact Or.inl rfl
    · subst h; exact Or.inl rfl
    · split at h
      · simp only [List.mem_singleton] at h
        subst h; exact Or.inl rfl
      · simp at h

theorem finish_mem (t : Bool) (i : Nat) (o : Bool) (p1 p2 : Except Unit Bool)
    (cn : Bool) (tr : Trigger) (od : Bool) :
    ∀ e ∈ (finish t i o p1 p2 cn tr od).1,
      isFinishEff e = true ∨ e = Effect.awaitFrame := by
  intro e he
  simp only [finish] at he
  split at he
  · simp at he
  · split at he
    · simp only [List.mem_singleton] at he
      subst he; exact Or.inl rfl
    · split at he
      · simp only [List.mem_cons, List.not_mem_nil, or_false] at he
        rcases he with h | h
        · subst h; exact Or.inl rfl
        · subst h; exact Or.inl rfl
      · exact reportChange_mem t o tr e he

theorem finish_deferred_mem (t : Bool) (i : Nat) (o : Bool)
    (p1 p2 : Except Unit Bool) (cn : Bool) (tr : Trigger) (od : Bool) :
    ∀ e ∈ (finish t i o p1 p2 cn tr od).2.getD [],
      isFinishEff e = true ∨ e = Effect.awaitFrame := by
  intro e he
  simp only [finish] at he
  split at he
  · simp at he
  · split at he
    · simp at he
    · split at he
      · simp only [Option.getD_some] at he
        exact reportChange_mem t od tr e he
      · simp at he

theorem finishTrace_mem (t o : Bool) (p1 p2 : Except Unit Bool) (cn : Bool)
    (tr : Trigger) (od : Bool) (order : List Nat) :
    ∀ e ∈ finishTrace t o p1 p2 cn tr od order,
      isFinishEff e = true ∨ e = Effect.awaitFrame := by
  induction order with
  | nil =>
      intro e he
      simp [finishTrace] at he
  | cons i rest ih =>
      intro e he
      simp only [finishTrace, List.mem_append] at he
      rcases he with h | h
      · exact finish_mem t i o p1 p2 cn tr od e h
      · exact ih e h

theorem startEff_not_opened (e : Effect) (h : isStartEff e = true) :
    isOpenedDispatch e = false := by
  cases e <;> simp_all [isStartEff, isOpenedDispatch]

theorem startEff_not_finishEff (e : Effect) (h : isStartEff e = true) :
    isFinishEff e = false := by
  cases e <;> simp_all [isStartEff, isFinishEff]

theorem startEff_not_setOpen (e : Effect) (h : isStartEff e = true) :
    isSetOpenEff e = false := by
  cases e <;> simp_all [isStartEff, isSetOpenEff]

theorem finishSide_not_start (e : Effect)
    (h : isFinishEff e = true ∨ e = Effect.awaitFrame) : isStartEff e = false := by
  rcases h with h | h
  · cases e <;> simp_all [isStartEff, isFinishEff]
  · subst h; rfl

theorem finishSide_not_beforetoggle (e : Effect)
    (h : isFinishEff e = true ∨ e = Effect.awaitFrame) :
    isBeforetoggleEff e = false := by
  rcases h with h | h
  · cases e <;> simp_all [isBeforetoggleEff, isFinishEff]
  · subst h; rfl

theorem finishSide_not_setOpen (e : Effect)
    (h : isFinishEff e = true ∨ e = Effect.awaitFrame) : isSetOpenEff e = false := by
  rcases h with h | h
  · cases e <;> simp_all [isSetOpenEff, isFinishEff]
  · subst h; rfl

theorem allPrecede_append (p q : Effect → Bool) (A B : List Effect)
    (hA : ∀ e ∈ A, q e = false) (hB : ∀ e ∈ B, p e = false) :
    allPrecede p q (A ++ B) := by
  intro i j hp hq
  rw [List.get_eq_getElem, List.getElem_append] at hp hq
  split at hp
  · split at hq
    · exfalso
      rw [hA _ (List.getElem_mem _)] at hq
      exact Bool.false_ne_true hq
    · rename_i hjA
      push_neg at hjA
      omega
  · exfalso
    rw [hB _ (List.getElem_mem _)] at hp
    exact Bool.false_ne_true hp

/-! ## Claim theorems -/

/-- C5: For every delay-phase run with an open target, delay enabled, whose timer
resolves as cancelled, the phase sets the live `open` boolean to the inverse of
the target (`false`), and the pipeline then aborts at the post-delay checkpoint,
registering no transition callbacks and dispatching no `sp-opened` event for
that attempt (the run's whole trace is the single `setOpen false` write);
conversely, on a close target or when the target no longer matches the live
state, the delay phase only cancels any pending open timer and leaves `open`
unchanged. -/
theorem delay_cancel_reverts (inp : PipelineIn) (h1 : inp.open0 = true)
    (h2 : inp.delayed = true) (h3 : inp.timerCancelled = true)
    (h4 : inp.afterDelay = Option.none) (t o d c : Bool) (m : Option Bool)
    (h5 : t = false ∨ t ≠ o) :
    managePopoverOpen inp =
      ⟨[Effect.setOpen false], 0, RunExit.abortAfterDelay, Option.none⟩
    ∧ manageDelay t o d c m = ([Effect.timerClose], o) := by
  constructor
  · simp [managePopoverOpen, manageDelay, h1, h2, h3, h4]
  · rcases h5 with h | h <;> simp [manageDelay, h]

/-- C5 witness: the concrete cancelled-delay run. -/
theorem delay_cancel_reverts_witness :
    managePopoverOpen sampleCancelledRun =
      ⟨[Effect.setOpen false], 0, RunExit.abortAfterDelay, Option.none⟩
    ∧ manageDelay false true false false Option.none =
      ([Effect.timerClose], true) :=
  delay_cancel_reverts sampleCancelledRun rfl rfl rfl rfl false true false false
    Option.none (Or.inl rfl)

/-- C6: The DOM-attach phase requests platform presentation (`showPopover`)
followed by the positioning call exactly when the target is open, the live
`open` observed after the first frame still equals the target, neither probe
reports the surface presented, and the element is connected; and in every run
the trace is one frame wait, optionally the two presentation calls, then one
further frame wait before the phase returns. -/
theorem ensureOnDOM_presentation (t o : Bool) (m1 m2 : Option Bool)
    (p1 p2 : Except Unit Bool) (cn : Bool) :
    ((ensureOnDOM t o m1 m2 p1 p2 cn).1 =
        [Effect.awaitFrame, Effect.showPopover, Effect.managePosition,
         Effect.awaitFrame]
      ∨ (ensureOnDOM t o m1 m2 p1 p2 cn).1 =
        [Effect.awaitFrame, Effect.awaitFrame])
    ∧ ((ensureOnDOM t o m1 m2 p1 p2 cn).1 =
        [Effect.awaitFrame, Effect.showPopover, Effect.managePosition,
         Effect.awaitFrame]
      ↔ t = true ∧ m1.getD o = t ∧ probeVal p1 = false ∧ probeVal p2 = false ∧
          cn = true) := by
  by_cases hc : t = true ∧ m1.getD o = t ∧ probeVal p1 = false ∧
      probeVal p2 = false ∧ cn = true
  · simp only [ensureOnDOM]
    rw [if_pos hc]
    exact ⟨Or.inl rfl, ⟨fun _ => hc, fun _ => rfl⟩⟩
  · simp only [ensureOnDOM]
    rw [if_neg hc]
    simp [hc]

/-- C7: The focus phase is a no-op when focus management is explicitly disabled
(`receivesFocus === 'false'`) or the overlay type is `'hint'`; and on a close
transition where the target still matches the live state, focus is restored to
the trigger exactly when the trigger is a real DOM element and the document's
active element lies inside the overlay subtree (in particular, never when focus
has already moved outside the overlay). -/
theorem applyFocus_guards (t : Bool) (f : Option Nat) (rf : ReceivesFocus)
    (ot : OverlayType) (o : Bool) (tr : Trigger) (ai : Bool) :
    ((rf = ReceivesFocus.rfalse ∨ ot = OverlayType.hint) →
        applyFocus t f rf ot o tr ai = [])
    ∧ (Effect.focusTrigger ∈ applyFocus false f rf ot false tr ai ↔
        rf ≠ ReceivesFocus.rfalse ∧ ot ≠ OverlayType.hint ∧
          tr = Trigger.real ∧ ai = true) := by
  constructor
  · intro h
    unfold applyFocus
    rw [if_pos h]
  · by_cases hg : rf = ReceivesFocus.rfalse ∨ ot = OverlayType.hint
    · unfold applyFocus
      rw [if_pos hg]
      simp only [List.not_mem_nil, false_iff]
      intro hcon
      rcases hg with h | h
      · exact hcon.1 h
      · exact hcon.2.1 h
    · push_neg at hg
      have hng : ¬(rf = ReceivesFocus.rfalse ∨ ot = OverlayType.hint) := by
        intro hcon
        rcases hcon with h | h
        · exact hg.1 h
        · exact hg.2 h
      unfold applyFocus
      rw [if_neg hng, if_pos (⟨rfl, rfl⟩ : false = false ∧ false = false)]
      cases tr <;> cases ai <;> simp [hg.1, hg.2]

/-- C8: In both the DOM-attach phase and the transition phase's completion
callback, a throwing presentation probe is swallowed: the probe result defaults
to `false` ("not presented") and the phase computes exactly what it would have
computed had the probe succeeded with `false`, so no failure reaches the
caller. -/
theorem probe_failures_swallowed (t o : Bool) (m1 m2 : Option Bool) (cn : Bool)
    (i : Nat) (tr : Trigger) (od : Bool) :
    probeVal (Except.error ()) = false
    ∧ ensureOnDOM t o m1 m2 (Except.error ()) (Except.error ()) cn =
        ensureOnDOM t o m1 m2 (Except.ok false) (Except.ok false) cn
    ∧ finish t i o (Except.error ()) (Except.error ()) cn tr od =
        finish t i o (Except.ok false) (Except.ok false) cn tr od :=
  ⟨rfl, rfl, rfl⟩

/-- C9: In every pipeline run the delay phase is the only phase that writes the
controller-level live `open` boolean (witnessed by the `setOpen` write of a
cancelled open delay); the DOM-attach phase, the transition phase (whose start
callbacks write only the per-element `el.open` flags), its completion callbacks
with their immediate and deferred report steps, and the focus phase emit no
write to the controller's `open` property. -/
theorem only_delay_writes_open (t o : Bool) (m1 m2 : Option Bool)
    (p1 p2 : Except Unit Bool) (cn : Bool) (els : List ElemSpec) (i : Nat)
    (tr : Trigger) (od : Bool) (f : Option Nat) (rf : ReceivesFocus)
    (ot : OverlayType) (ai : Bool) :
    Effect.setOpen false ∈ (manageDelay true true true true Option.none).1
    ∧ (ensureOnDOM t o m1 m2 p1 p2 cn).1.filter isSetOpenEff = []
    ∧ (makeTransition t o els).1.filter isSetOpenEff = []
    ∧ (finish t i o p1 p2 cn tr od).1.filter isSetOpenEff = []
    ∧ ((finish t i o p1 p2 cn tr od).2.getD []).filter isSetOpenEff = []
    ∧ (applyFocus t f rf ot o tr ai).filter isSetOpenEff = [] := by
  refine ⟨by simp [manageDelay], ?_, ?_, ?_, ?_, ?_⟩
  · simp only [ensureOnDOM]
    split <;> simp [isSetOpenEff]
  · rw [List.filter_eq_nil_iff]
    intro a ha
    simp only [makeTransition] at ha
    split at ha
    · simp at ha
    · rw [startEff_not_setOpen a (startsTrace_mem t els 0 a ha)]
      simp
  · rw [List.filter_eq_nil_iff]
    intro a ha
    rw [finishSide_not_setOpen a (finish_mem t i o p1 p2 cn tr od a ha)]
    simp
  · rw [List.filter_eq_nil_iff]
    intro a ha
    rw [finishSide_not_setOpen a (finish_deferred_mem t i o p1 p2 cn tr od a ha)]
    simp
  · unfold applyFocus
    split
    · rfl
    · split
      · split
        · split <;> simp [isSetOpenEff]
        · simp [isSetOpenEff]
      · cases f <;> simp [isSetOpenEff]

/-- C10: The staleness check at the entry of `managePopoverOpen` compares the live
`open` against a snapshot assigned from `open` in the same synchronous span, so
its abort branch is unreachable: no run exits with `abortEntry`; the first
checkpoint that can actually abort is the one after the delay phase, reached for
example by a cancelled open delay. -/
theorem entry_check_unreachable (inp : PipelineIn) :
    (managePopoverOpen inp).exited ≠ RunExit.abortEntry
    ∧ (managePopoverOpen sampleCancelledRun).exited = RunExit.abortAfterDelay := by
  constructor
  · unfold managePopoverOpen
    rw [if_neg (by simp)]
    dsimp only
    split
    · simp
    · split
      · simp
      · split <;> simp
  · rfl

/-- C1 counterexample: a focus-phase run for an open target that observes
`open = false ≠ true = targetOpenState` after its two frame waits still
performs a focus call — it focuses the cached focus candidate. -/
theorem focus_stale_candidate_cex :
    Effect.focusCandidate 0 ∈
      applyFocus true (Option.some 0) ReceivesFocus.rtrue OverlayType.auto false
        Trigger.real true := by
  decide

/-- C1 (amended): once the delay, DOM-attach or transition phase observes that
the live `open` differs from the target snapshot, it performs no further
externally observable side effect (no DOM mutation, event dispatch or focus
change); in the focus phase, under an observed divergence no trigger-focus
call is made, but the cached focus candidate may still receive focus. -/
theorem staleness_abort_amended (t o : Bool) (h : o ≠ t) (d c : Bool)
    (m m2 : Option Bool) (p1 p2 : Except Unit Bool) (cn : Bool)
    (els : List ElemSpec) (i : Nat) (tr : Trigger) (od : Bool) (f : Option Nat)
    (rf : ReceivesFocus) (ot : OverlayType) (ai : Bool) :
    (manageDelay t o d c m).1.filter isObservable = []
    ∧ (ensureOnDOM t o Option.none m2 p1 p2 cn).1.filter isObservable = []
    ∧ makeTransition t o els = ([], Option.none, 0)
    ∧ finish t i o p1 p2 cn tr od = ([], Option.none)
    ∧ reportChange t o tr = []
    ∧ Effect.focusTrigger ∉ applyFocus t f rf ot o tr ai := by
  have h' : t ≠ o := Ne.symm h
  refine ⟨?_, ?_, ?_, ?_, ?_, ?_⟩
  · simp [manageDelay, h', isObservable]
  · simp [ensureOnDOM, h, isObservable]
  · simp [makeTransition, h]
  · simp [finish, h]
  · simp [reportChange, h]
  · unfold applyFocus
    split
    · simp
    · rw [if_neg (fun hc => h' hc.1)]
      cases f <;> simp

/-- C1 witness: the amended staleness guarantees at a concrete diverged state
(target open, live `open` flipped back to false). -/
theorem staleness_abort_amended_witness :
    (manageDelay true false false false Option.none).1.filter isObservable = []
    ∧ (ensureOnDOM true false Option.none Option.none (Except.ok false)
        (Except.ok false) true).1.filter isObservable = []
    ∧ makeTransition true false [] = ([], Option.none, 0)
    ∧ finish true 0 false (Except.ok false) (Except.ok false) true Trigger.real
        false = ([], Option.none)
    ∧ reportChange true false Trigger.real = []
    ∧ Effect.focusTrigger ∉ applyFocus true Option.none ReceivesFocus.rtrue
        OverlayType.auto false Trigger.real true :=
  staleness_abort_amended true false (by decide) false false Option.none
    Option.none (Except.ok false) (Except.ok false) true [] 0 Trigger.real false
    Option.none ReceivesFocus.rtrue OverlayType.auto true

/-- C2 counterexample: with a virtual trigger, the completed report step
dispatches the root-level `sp-opened` event bubbling and composed — not
non-bubbling/non-composed as the claim states. -/
theorem virtual_trigger_root_bubbles_cex :
    Effect.dispatchRoot EvName.spOpened true true ∈
      reportChange true true Trigger.virtual
    ∧ Effect.dispatchRoot EvName.spOpened false false ∉
      reportChange true true Trigger.virtual := by
  decide

/-- C2 (amended): for every completed report step: with a virtual trigger the
root event is bubbling and composed and no event at all is dispatched on the
trigger; with a real DOM trigger the root event is non-bubbling and
non-composed and a bubbling, composed, detail-carrying event is additionally
dispatched on the trigger element; with no trigger element the root event is
non-bubbling/non-composed and no trigger event is dispatched. -/
theorem report_event_scopes (t : Bool) :
    reportChange t t Trigger.virtual =
      [Effect.awaitFrame, Effect.dispatchRoot (eventName t) true true,
       Effect.dispatchLocal 0 (eventName t) false false false]
    ∧ reportChange t t Trigger.real =
      [Effect.awaitFrame, Effect.dispatchRoot (eventName t) false false,
       Effect.dispatchLocal 0 (eventName t) false false false,
       Effect.dispatchTrigger (eventName t) true true true]
    ∧ reportChange t t Trigger.absent =
      [Effect.awaitFrame, Effect.dispatchRoot (eventName t) false false,
       Effect.dispatchLocal 0 (eventName t) false false false] := by
  cases t <;> exact ⟨rfl, rfl, rfl⟩

/-- C3 counterexample: a close-transition completion where a probe reports the
surface presented but the element is disconnected: no platform hide is
requested and the closed-event report runs immediately in the callback itself,
not deferred behind a `beforetoggle` confirmation. -/
theorem close_hide_disconnected_cex :
    Effect.hidePopover ∉
      (finish false 0 false (Except.ok true) (Except.ok true) false Trigger.real
        false).1
    ∧ Effect.dispatchRoot EvName.spClosed false false ∈
      (finish false 0 false (Except.ok true) (Except.ok true) false Trigger.real
        false).1
    ∧ (finish false 0 false (Except.ok true) (Except.ok true) false Trigger.real
        false).2 = Option.none := by
  decide

/-- C3 (amended): for every close-transition completion on the primary element
in which either presentation probe reports the surface presented AND the
element is connected, the callback itself only wires the one-shot
`beforetoggle` listener and issues the platform hide request, and the
closed-event report step is exactly the deferred payload, run only after the
platform confirms the hide — never part of the immediate trace. -/
theorem close_hide_defers_report (p1 p2 : Except Unit Bool) (tr : Trigger)
    (od : Bool) (h : probeVal p1 = true ∨ probeVal p2 = true) :
    finish false 0 false p1 p2 true tr od =
      ([Effect.addBeforetoggleListener, Effect.hidePopover],
       Option.some (reportChange false od tr)) := by
  rcases h with h | h <;> simp [finish, h]

/-- C3 witness: the deferred-hide shape at a concrete presented, connected
close completion. -/
theorem close_hide_defers_report_witness :
    finish false 0 false (Except.ok true) (Except.ok false) true Trigger.real
        true =
      ([Effect.addBeforetoggleListener, Effect.hidePopover],
       Option.some (reportChange false true Trigger.real)) :=
  close_hide_defers_report (Except.ok true) (Except.ok false) Trigger.real true
    (Or.inl rfl)

/-- C4 counterexample: a concrete uninterrupted open run (one element, real
trigger) in which the root-level `sp-opened` is dispatched before the primary
element's local `sp-opened`, so the root and trigger events are not dispatched
only after the local event. -/
theorem root_before_local_event_cex :
    ¬ allPrecede isLocalPrimaryOpened isRootOrTriggerOpened
      (uninterruptedRunTrace true [⟨true, Option.some 0, Option.none⟩]
        (Except.ok false) (Except.ok false) true Trigger.real [0]) := by
  decide

/-- C4 (amended): in every uninterrupted open transition the before-open
dispatch fires strictly before any `sp-opened` dispatch, and all start-callback
effects precede all completion-callback effects; for the primary element the
completed report step dispatches the root `sp-opened` first, then the local
`sp-opened` on the element itself, and only after the local event the
trigger's detail-carrying event. -/
theorem open_transition_event_ordering (els : List ElemSpec)
    (p1 p2 : Except Unit Bool) (cn : Bool) (tr : Trigger) (order : List Nat) :
    allPrecede isBeforetoggleEff isOpenedDispatch
      (uninterruptedRunTrace true els p1 p2 cn tr order)
    ∧ allPrecede isStartEff isFinishEff
      (uninterruptedRunTrace true els p1 p2 cn tr order)
    ∧ reportChange true true Trigger.real =
      [Effect.awaitFrame, Effect.dispatchRoot EvName.spOpened false false,
       Effect.dispatchLocal 0 EvName.spOpened false false false,
       Effect.dispatchTrigger EvName.spOpened true true true] := by
  refine ⟨?_, ?_, by decide⟩
  · unfold uninterruptedRunTrace
    exact allPrecede_append _ _ _ _
      (fun e he => startEff_not_opened e (startsTrace_mem true els 0 e he))
      (fun e he => finishSide_not_beforetoggle e
        (finishTrace_mem true true p1 p2 cn tr true order e he))
  · unfold uninterruptedRunTrace
    exact allPrecede_append _ _ _ _
      (fun e he => startEff_not_finishEff e (startsTrace_mem true els 0 e he))
      (fun e he => finishSide_not_start e
        (finishTrace_mem true true p1 p2 cn tr true order e he))
